import Mathlib

/-!
Verification of `src/template.py`, a small Go-style text-templating
interpreter: a lexer splitting source into text and directive tokens, a
recursive-descent parser for blocks and expressions, an AST with
children/with_children rewriting, an execution engine, and an escaping
pass that wraps interpolations in calls to an `html` function.

Python semantics are embedded shallowly: machine values are a `Value`
inductive, Python exceptions are an explicit `PyErr` error monad
(`Except PyErr`), dictionaries are association lists with Python
`dict.get`/update semantics, and out-of-range indexing or wrong-arity
method calls surface as the corresponding Python exception.
-/

namespace Tmpl

/-- Python runtime values used as template data: None, booleans,
integers, strings, lists and string-keyed dictionaries. -/
inductive Value where
  | vnone : Value
  | vbool (b : Bool) : Value
  | vint (n : Int) : Value
  | vstr (s : String) : Value
  | vlist (xs : List Value) : Value
  | vdict (m : List (String × Value)) : Value

/-- Python exceptions raised by the code: plain `Exception` (used by the
parser's `fail` helpers, carrying a formatted `src:line: msg` string),
`TypeError`, `KeyError`, `IndexError`, `AttributeError`,
`AssertionError`. -/
inductive PyErr where
  | exc (msg : String) : PyErr
  | typeError (msg : String) : PyErr
  | keyError (key : String) : PyErr
  | indexError : PyErr
  | attributeError (msg : String) : PyErr
  | assertionError : PyErr
deriving DecidableEq

/-- The AST node type, one constructor per concrete Python `Node`
subclass (`TextNode`, `InterpolationNode`, `ReferenceNode`, `CallNode`,
`StrLitNode`, `TemplateNode`, `IfNode`, `RangeNode`, `WithNode`,
`ListNode`).  Every node carries the `src` name and `line` number, as in
`Node.__init__`. -/
inductive Node where
  | text (src : String) (line : Nat) (txt : String) : Node
  | interpolation (src : String) (line : Nat) (expr : Node) : Node
  | reference (src : String) (line : Nat) (properties : List String) : Node
  | call (src : String) (line : Nat) (name : String) (args : List Node) : Node
  | strLit (src : String) (line : Nat) (value : String) : Node
  | templateNode (src : String) (line : Nat) (name : Node) (expr : Option Node) : Node
  | ifNode (src : String) (line : Nat) (expr : Node) (body : Node) (els : Option Node) : Node
  | rangeNode (src : String) (line : Nat) (expr : Node) (body : Node) (els : Option Node) : Node
  | withNode (src : String) (line : Nat) (expr : Node) (body : Node) (els : Option Node) : Node
  | listNode (src : String) (line : Nat) (elements : List Node) : Node

/-- Membership in the Python `ExprNode` class: `ReferenceNode`,
`CallNode` and `StrLitNode` subclass `ExprNode`; all other node classes
(including `InterpolationNode`) subclass `Node` directly. -/
def isExprNode : Node → Bool
  | .reference .. => true
  | .call .. => true
  | .strLit .. => true
  | _ => false

/-- The `children()` method of each node class: the ordered tuple of
child nodes. -/
def children : Node → List Node
  | .text .. => []
  | .interpolation _ _ e => [e]
  | .reference .. => []
  | .call _ _ _ args => args
  | .strLit .. => []
  | .templateNode _ _ nm e =>
    match e with
    | some ex => [nm, ex]
    | none => [nm]
  | .ifNode _ _ e b el | .rangeNode _ _ e b el | .withNode _ _ e b el =>
    match el with
    | some ec => [e, b, ec]
    | none => [e, b]
  | .listNode _ _ xs => xs

mutual

/-- Weight measure on nodes used to justify termination of the
recursions that, like the Python code, walk `children` lists. -/
def wN : Node → Nat
  | .text .. => 3
  | .interpolation _ _ e => 3 + wN e
  | .reference .. => 3
  | .call _ _ _ args => 3 + wL args
  | .strLit .. => 3
  | .templateNode _ _ nm e => 3 + wN nm + wO e
  | .ifNode _ _ e b el => 3 + wN e + wN b + wO el
  | .rangeNode _ _ e b el => 3 + wN e + wN b + wO el
  | .withNode _ _ e b el => 3 + wN e + wN b + wO el
  | .listNode _ _ xs => 3 + wL xs

/-- Weight of a list of nodes. -/
def wL : List Node → Nat
  | [] => 0
  | c :: cs => 1 + wN c + wL cs

/-- Weight of an optional node. -/
def wO : Option Node → Nat
  | none => 0
  | some c => 1 + wN c

end

/-- The `children` list of a node always weighs strictly less than the
node itself. -/
theorem wL_children_lt : (n : Node) → wL (children n) < wN n
  | .text .. => by simp [children, wN, wL]
  | .interpolation .. => by simp [children, wN, wL]
  | .reference .. => by simp [children, wN, wL]
  | .call .. => by simp [children, wN]
  | .strLit .. => by simp [children, wN, wL]
  | .templateNode _ _ _ e => by
    cases e <;> simp only [children, wN, wL, wO] <;> omega
  | .ifNode _ _ _ _ el => by
    cases el <;> simp only [children, wN, wL, wO] <;> omega
  | .rangeNode _ _ _ _ el => by
    cases el <;> simp only [children, wN, wL, wO] <;> omega
  | .withNode _ _ _ _ el => by
    cases el <;> simp only [children, wN, wL, wO] <;> omega
  | .listNode .. => by simp [children, wN]

/-- Shared body of `BlockNode.with_children`: `expr = children[0]`,
`body = children[1]` (IndexError when absent), an optional third child
as the else clause, and `assert len(children) == 3` when more than two
children are supplied. -/
def blockWC (ctor : Node → Node → Option Node → Node) (cs : List Node) :
    Except PyErr Node :=
  match cs with
  | [] => .error .indexError
  | [_] => .error .indexError
  | e :: b :: rest =>
    match rest with
    | [] => .ok (ctor e b none)
    | [ec] => .ok (ctor e b (some ec))
    | _ => .error .assertionError

mutual

/-- The `with_children` method of each node class.  Python `assert`
failures are `AssertionError`, out-of-range list indexing is
`IndexError`.  Note that `TemplateNode.with_children` asserts
`len(children) <= 2`, reads `children[0]` into a local it never uses,
and then passes `self.name.clone()` — the supplied first child is
discarded. -/
def withChildren : (n : Node) → List Node → Except PyErr Node
  | .text s l t, cs =>
    if cs.length = 0 then .ok (.text s l t) else .error .assertionError
  | .interpolation s l _, cs =>
    match cs with
    | [c] => .ok (.interpolation s l c)
    | _ => .error .assertionError
  | .reference s l ps, cs =>
    if cs.length = 0 then .ok (.reference s l ps) else .error .assertionError
  | .call s l n _, cs => .ok (.call s l n cs)
  | .strLit s l v, cs =>
    if cs.length = 0 then .ok (.strLit s l v) else .error .assertionError
  | .templateNode s l nm _, cs =>
    if cs.length ≤ 2 then
      match cs with
      | [] => .error .indexError
      | _ :: rest =>
        match clone nm with
        | .ok nm2 => .ok (.templateNode s l nm2 rest.head?)
        | .error e => .error e
    else .error .assertionError
  | .ifNode s l _ _ _, cs =>
    blockWC (fun e b el => .ifNode s l e b el) cs
  | .rangeNode s l _ _ _, cs =>
    blockWC (fun e b el => .rangeNode s l e b el) cs
  | .withNode s l _ _ _, cs =>
    blockWC (fun e b el => .withNode s l e b el) cs
  | .listNode s l _, cs => .ok (.listNode s l cs)
termination_by n _ => (wN n, 0)
decreasing_by
  apply Prod.Lex.left
  simp only [wN]
  omega

/-- The `clone` method of `Node`: rebuild this node from clones of its
children via `with_children`. -/
def clone (n : Node) : Except PyErr Node :=
  match cloneList (children n) with
  | .ok cs => withChildren n cs
  | .error e => .error e
termination_by (wN n, 2)
decreasing_by
  · exact Prod.Lex.left _ _ (wL_children_lt n)
  · exact Prod.Lex.right _ (by omega)

/-- Clones each node of a list in order. -/
def cloneList : List Node → Except PyErr (List Node)
  | [] => .ok []
  | c :: cs =>
    match clone c with
    | .ok c2 =>
      match cloneList cs with
      | .ok cs2 => .ok (c2 :: cs2)
      | .error e => .error e
    | .error e => .error e
termination_by l => (wL l, 1)
decreasing_by
  all_goals exact Prod.Lex.left _ _ (by simp only [wL]; omega)

end

mutual

/-- The inner `esc` function of `escape` (template.py lines 617-623):
an `InterpolationNode` has its expression wrapped in
`CallNode(node.src, node.line, html, (node.expr,))` via `with_children`;
any other `ExprNode` is returned untouched; any other node is rebuilt by
`with_children` from the recursively escaped `children`. -/
def esc : Node → Except PyErr Node
  | .interpolation s l e =>
    withChildren (.interpolation s l e) [.call s l "html" [e]]
  | n =>
    if isExprNode n then .ok n
    else
      match escList (children n) with
      | .ok cs => withChildren n cs
      | .error e => .error e
termination_by n => (wN n, 2)
decreasing_by
  exact Prod.Lex.left _ _ (wL_children_lt n)

/-- Maps `esc` over a list of child nodes. -/
def escList : List Node → Except PyErr (List Node)
  | [] => .ok []
  | c :: cs =>
    match esc c with
    | .ok c2 =>
      match escList cs with
      | .ok cs2 => .ok (c2 :: cs2)
      | .error e => .error e
    | .error e => .error e
termination_by l => (wL l, 1)
decreasing_by
  all_goals exact Prod.Lex.left _ _ (by simp only [wL]; omega)

end

mutual

/-- The rewrite that the spec describes for the escaping pass: every
`InterpolationNode`'s expression is wrapped in a `CallNode` invoking
`html` with that expression as sole argument, every other expression
node is left untouched, and every other statement node is rebuilt with
its children individually rewritten, preserving node type and child
positions. -/
def escSpec : Node → Node
  | .interpolation s l e => .interpolation s l (.call s l "html" [e])
  | .text s l t => .text s l t
  | .reference s l ps => .reference s l ps
  | .call s l n args => .call s l n args
  | .strLit s l v => .strLit s l v
  | .templateNode s l nm e => .templateNode s l (escSpec nm) (escSpecO e)
  | .ifNode s l e b el => .ifNode s l (escSpec e) (escSpec b) (escSpecO el)
  | .rangeNode s l e b el => .rangeNode s l (escSpec e) (escSpec b) (escSpecO el)
  | .withNode s l e b el => .withNode s l (escSpec e) (escSpec b) (escSpecO el)
  | .listNode s l xs => .listNode s l (escSpecL xs)

/-- Maps `escSpec` over a list of children. -/
def escSpecL : List Node → List Node
  | [] => []
  | c :: cs => escSpec c :: escSpecL cs

/-- Maps `escSpec` over an optional child. -/
def escSpecO : Option Node → Option Node
  | none => none
  | some c => some (escSpec c)

end

mutual

/-- The double rewrite that claim C10 describes: after two applications
of the escaping pass, every `InterpolationNode`'s original expression
`E` is wrapped twice, as `CallNode(html, (CallNode(html, (E,)),))`;
other expression nodes stay untouched and other statement nodes are
rebuilt around their rewritten children. -/
def escSpecTwice : Node → Node
  | .interpolation s l e =>
    .interpolation s l (.call s l "html" [Node.call s l "html" [e]])
  | .text s l t => .text s l t
  | .reference s l ps => .reference s l ps
  | .call s l n args => .call s l n args
  | .strLit s l v => .strLit s l v
  | .templateNode s l nm e => .templateNode s l (escSpecTwice nm) (escSpecTwiceO e)
  | .ifNode s l e b el =>
    .ifNode s l (escSpecTwice e) (escSpecTwice b) (escSpecTwiceO el)
  | .rangeNode s l e b el =>
    .rangeNode s l (escSpecTwice e) (escSpecTwice b) (escSpecTwiceO el)
  | .withNode s l e b el =>
    .withNode s l (escSpecTwice e) (escSpecTwice b) (escSpecTwiceO el)
  | .listNode s l xs => .listNode s l (escSpecTwiceL xs)

/-- Maps `escSpecTwice` over a list of children. -/
def escSpecTwiceL : List Node → List Node
  | [] => []
  | c :: cs => escSpecTwice c :: escSpecTwiceL cs

/-- Maps `escSpecTwice` over an optional child. -/
def escSpecTwiceO : Option Node → Option Node
  | none => none
  | some c => some (escSpecTwice c)

end

mutual

/-- The data-model constraint of spec section 3 on templates: a
`TemplateNode` holds "a name expression", i.e. its name child is an
expression node.  The predicate follows the recursion of the escaping
pass through statement children. -/
def wfTemplate : Node → Bool
  | .interpolation .. => true
  | .text .. => true
  | .reference .. => true
  | .call .. => true
  | .strLit .. => true
  | .templateNode _ _ nm e => isExprNode nm && wfTemplateO e
  | .ifNode _ _ e b el => wfTemplate e && wfTemplate b && wfTemplateO el
  | .rangeNode _ _ e b el => wfTemplate e && wfTemplate b && wfTemplateO el
  | .withNode _ _ e b el => wfTemplate e && wfTemplate b && wfTemplateO el
  | .listNode _ _ xs => wfTemplateL xs

/-- Conjunction of `wfTemplate` over a list of children. -/
def wfTemplateL : List Node → Bool
  | [] => true
  | c :: cs => wfTemplate c && wfTemplateL cs

/-- Conjunction of `wfTemplate` over an optional child. -/
def wfTemplateO : Option Node → Bool
  | none => true
  | some c => wfTemplate c

end

/-- The execution environment: the current data value, the function
registry and the template map (`Env.__init__`).  Registries and maps
are association lists with Python dict semantics. -/
structure Env where
  data : Value
  fns : List (String × (List Value → Except PyErr Value))
  templates : List (String × Node)

/-- Python dictionary lookup: the value stored under a key, if any. -/
def dictLookup {α : Type} (d : List (String × α)) (k : String) : Option α :=
  match d with
  | [] => none
  | (k2, v) :: rest => if k2 = k then some v else dictLookup rest k

/-- Python dictionary update `d[k] = v`: replaces the value in place
when the key is present (keys are unique), otherwise appends a new
entry. -/
def dictSet {α : Type} (d : List (String × α)) (k : String) (v : α) :
    List (String × α) :=
  match d with
  | [] => [(k, v)]
  | (k2, w) :: rest => if k2 = k then (k, v) :: rest else (k2, w) :: dictSet rest k v

/-- Modelled from the spec: the repository imports an `escaping` module
(not under `src/`) whose `escape_html` is an opaque HTML-escaping
callable; the spec's only constraint is the example that an escaped
rendering of `<b>` produces `&lt;b&gt;`.  Modelled as entity-replacing
the HTML metacharacters of a string value and leaving other values
unchanged. -/
def escapeHtmlChar (c : Char) : String :=
  if c = '&' then "&amp;"
  else if c = '<' then "&lt;"
  else if c = '>' then "&gt;"
  else if c = '\x22' then "&quot;"
  else if c = '\x27' then "&#39;"
  else String.singleton c

/-- Modelled from the spec: `escaping.escape_html` on a value. -/
def escapeHtml : Value → Value
  | .vstr s => .vstr (String.join (s.data.map escapeHtmlChar))
  | v => v

/-- Modelled from the spec: `escaping.escape_html` as a registry entry,
a callable of exactly one argument. -/
def escapeHtmlFn (args : List Value) : Except PyErr Value :=
  match args with
  | [v] => .ok (escapeHtml v)
  | _ => .error (.typeError "escape_html() takes exactly 1 argument")

/-- The `escape(env, name)` pass (template.py lines 612-627): asserts
the name is a known template, registers `escaping.escape_html` under the
reserved registry name `html`, and replaces the stored root of the named
template with its `esc` rewrite. -/
def escapeTemplate (env : Env) (name : String) : Except PyErr Env :=
  match dictLookup env.templates name with
  | none => .error .assertionError
  | some root =>
    match esc root with
    | .ok root2 =>
      .ok { data := env.data,
            fns := dictSet env.fns "html" escapeHtmlFn,
            templates := dictSet env.templates name root2 }
    | .error e => .error e

/-- One character of the Python 2 `repr` of a string, with `q` the
chosen delimiter.  Escapes the backslash, the delimiter and the common
control characters; other characters are kept (sufficient for the ASCII
data exercised here). -/
def pyReprStrChar (q : Char) (c : Char) : String :=
  if c = '\\' then "\\\\"
  else if c = q then "\\" ++ String.singleton q
  else if c = '\n' then "\\n"
  else if c = '\r' then "\\r"
  else if c = '\t' then "\\t"
  else String.singleton c

/-- The Python 2 `repr` of a string: single-quoted, unless the string
contains a single quote and no double quote. -/
def pyReprStr (s : String) : String :=
  let q : Char :=
    if s.data.contains '\x27' && !(s.data.contains '\x22') then '\x22' else '\x27'
  String.singleton q ++ String.join (s.data.map (pyReprStrChar q)) ++
    String.singleton q

mutual

/-- The Python `repr` of a value (`str` and `repr` agree on everything
but strings): `None`, `True`/`False`, decimal integers, quoted strings,
and bracketed lists/dicts of the elements' reprs. -/
def pyRepr : Value → String
  | .vnone => "None"
  | .vbool b => if b then "True" else "False"
  | .vint n => toString n
  | .vstr s => pyReprStr s
  | .vlist xs => "[" ++ pyReprList xs ++ "]"
  | .vdict m => "\x7b" ++ pyReprItems m ++ "\x7d"

/-- Comma-joined reprs of list elements. -/
def pyReprList : List Value → String
  | [] => ""
  | [v] => pyRepr v
  | v :: rest => pyRepr v ++ ", " ++ pyReprList rest

/-- Comma-joined `key: value` reprs of dict items. -/
def pyReprItems : List (String × Value) → String
  | [] => ""
  | [(k, v)] => pyReprStr k ++ ": " ++ pyRepr v
  | (k, v) :: rest => pyReprStr k ++ ": " ++ pyRepr v ++ ", " ++ pyReprItems rest

end

/-- The Python `str` of a value: a string is itself, anything else is
its repr (what `InterpolationNode.execute` produces via `str(value)`). -/
def pyStr : Value → String
  | .vstr s => s
  | v => pyRepr v

/-- Python truthiness: `None`, `0`, the empty string and empty
containers are falsy. -/
def pyTruthy : Value → Bool
  | .vnone => false
  | .vbool b => b
  | .vint n => n != 0
  | .vstr s => s != ""
  | .vlist xs => !xs.isEmpty
  | .vdict m => !m.isEmpty

/-- Python iteration over a value (`for value in iterable`): lists yield
their elements, dicts their keys, strings their characters; other
values raise `TypeError`. -/
def pyIter : Value → Except PyErr (List Value)
  | .vlist xs => .ok xs
  | .vdict m => .ok (m.map (fun p => Value.vstr p.1))
  | .vstr s => .ok (s.data.map (fun c => Value.vstr (String.singleton c)))
  | .vnone => .error (.typeError "NoneType object is not iterable")
  | .vbool _ => .error (.typeError "bool object is not iterable")
  | .vint _ => .error (.typeError "int object is not iterable")

/-- The property-walk loop of `ReferenceNode.execute`: starting from the
data value, for each property first break out if the value is `None`,
otherwise call `.get(prop)` — dict lookup defaulting to `None`, an
`AttributeError` on any non-dict value. -/
def refWalk : Value → List String → Except PyErr Value
  | d, [] => .ok d
  | .vnone, _ :: _ => .ok .vnone
  | .vdict m, p :: ps => refWalk ((dictLookup m p).getD .vnone) ps
  | .vbool _, _ :: _ => .error (.attributeError "bool object has no attribute get")
  | .vint _, _ :: _ => .error (.attributeError "int object has no attribute get")
  | .vstr _, _ :: _ => .error (.attributeError "str object has no attribute get")
  | .vlist _, _ :: _ => .error (.attributeError "list object has no attribute get")

/-- The `with_data` method of `Env`: same functions and templates, new
data value. -/
def withData (env : Env) (d : Value) : Env :=
  { env with data := d }

mutual

/-- The `execute(self, env, out)` methods of the node classes, as one
function: statement nodes append to `out` and return `None`, expression
nodes return a value.  `out` is `none` when the Python code passes the
object `None` for it (as every expression evaluation does); writing to
it then raises `AttributeError`.  `TemplateNode.execute` calls
`self.name.execute(env)` with only one argument, which raises
`TypeError` before anything else happens. -/
def pyExec : Node → Env → Option String → Except PyErr (Option String × Value)
  | .text _ _ t, _, out =>
    match out with
    | some s => .ok (some (s ++ t), .vnone)
    | none => .error (.attributeError "NoneType object has no attribute write")
  | .interpolation _ _ e, env, out =>
    match pyExec e env none with
    | .ok (_, v) =>
      match v with
      | .vnone => .ok (out, .vnone)
      | v =>
        match out with
        | some s => .ok (some (s ++ pyStr v), .vnone)
        | none => .error (.attributeError "NoneType object has no attribute write")
    | .error e2 => .error e2
  | .reference _ _ ps, env, out =>
    match refWalk env.data ps with
    | .ok v => .ok (out, v)
    | .error e2 => .error e2
  | .call _ _ nm args, env, out =>
    match dictLookup env.fns nm with
    | none => .error (.keyError nm)
    | some f =>
      match pyExecArgs args env out with
      | .ok (out2, vs) =>
        match f vs with
        | .ok v => .ok (out2, v)
        | .error e2 => .error e2
      | .error e2 => .error e2
  | .strLit _ _ v, _, out => .ok (out, .vstr v)
  | .templateNode _ _ _ _, _, _ =>
    .error (.typeError "execute() takes exactly 3 arguments (2 given)")
  | .withNode _ _ e b el, env, out =>
    match pyExec e env none with
    | .ok (_, d) =>
      if pyTruthy d then
        match pyExec b (withData env d) out with
        | .ok (out2, _) => .ok (out2, .vnone)
        | .error e2 => .error e2
      else
        match el with
        | some ec =>
          match pyExec ec env out with
          | .ok (out2, _) => .ok (out2, .vnone)
          | .error e2 => .error e2
        | none => .ok (out, .vnone)
    | .error e2 => .error e2
  | .ifNode _ _ e b el, env, out =>
    match pyExec e env none with
    | .ok (_, c) =>
      if pyTruthy c then
        match pyExec b env out with
        | .ok (out2, _) => .ok (out2, .vnone)
        | .error e2 => .error e2
      else
        match el with
        | some ec =>
          match pyExec ec env out with
          | .ok (out2, _) => .ok (out2, .vnone)
          | .error e2 => .error e2
        | none => .ok (out, .vnone)
    | .error e2 => .error e2
  | .rangeNode _ _ e b el, env, out =>
    match pyExec e env none with
    | .ok (_, it) =>
      if pyTruthy it then
        match pyIter it with
        | .ok vs =>
          match pyExecIter b vs env out with
          | .ok out2 => .ok (out2, .vnone)
          | .error e2 => .error e2
        | .error e2 => .error e2
      else
        match el with
        | some ec =>
          match pyExec ec env out with
          | .ok (out2, _) => .ok (out2, .vnone)
          | .error e2 => .error e2
        | none => .ok (out, .vnone)
    | .error e2 => .error e2
  | .listNode _ _ xs, env, out =>
    match pyExecSeq xs env out with
    | .ok out2 => .ok (out2, .vnone)
    | .error e2 => .error e2
termination_by n _ _ => (wN n, 0)
decreasing_by
  all_goals exact Prod.Lex.left _ _ (by simp only [wN, wL, wO]; omega)

/-- Left-to-right evaluation of a `CallNode`'s argument list, threading
the output sink through each evaluation. -/
def pyExecArgs :
    List Node → Env → Option String → Except PyErr (Option String × List Value)
  | [], _, out => .ok (out, [])
  | a :: rest, env, out =>
    match pyExec a env out with
    | .ok (out2, v) =>
      match pyExecArgs rest env out2 with
      | .ok (out3, vs) => .ok (out3, v :: vs)
      | .error e2 => .error e2
    | .error e2 => .error e2
termination_by l _ _ => (wL l, 0)
decreasing_by
  all_goals exact Prod.Lex.left _ _ (by simp only [wN, wL]; omega)

/-- Sequential execution of a `ListNode`'s elements. -/
def pyExecSeq : List Node → Env → Option String → Except PyErr (Option String)
  | [], _, out => .ok out
  | c :: rest, env, out =>
    match pyExec c env out with
    | .ok (out2, _) => pyExecSeq rest env out2
    | .error e2 => .error e2
termination_by l _ _ => (wL l, 0)
decreasing_by
  all_goals exact Prod.Lex.left _ _ (by simp only [wN, wL]; omega)

/-- The loop of `RangeNode.execute`: one execution of the body per
iterated value, with the data rebound to that value. -/
def pyExecIter :
    Node → List Value → Env → Option String → Except PyErr (Option String)
  | _, [], _, out => .ok out
  | b, v :: vs, env, out =>
    match pyExec b (withData env v) out with
    | .ok (out2, _) => pyExecIter b vs env out2
    | .error e2 => .error e2
termination_by b vs _ _ => (wN b, vs.length + 1)
decreasing_by
  all_goals exact Prod.Lex.right _ (by simp only [List.length_cons]; omega)

end

/-- The line number a node carries (`self.line`). -/
def nodeLine : Node → Nat
  | .text _ l _ => l
  | .interpolation _ l _ => l
  | .reference _ l _ => l
  | .call _ l _ _ => l
  | .strLit _ l _ => l
  | .templateNode _ l _ _ => l
  | .ifNode _ l _ _ _ => l
  | .rangeNode _ l _ _ _ => l
  | .withNode _ l _ _ _ => l
  | .listNode _ l _ => l

/-- Python `'.'.join(xs)`. -/
def joinDot : List String → String
  | [] => ""
  | [p] => p
  | p :: rest => p ++ "." ++ joinDot rest

/-- Assembles `BlockNode.__str__` from the block keyword and the
already-serialized parts. -/
def blockStr (nm es bs : String) (elo : Option String) : String :=
  match elo with
  | some ecs =>
    "\x7b\x7b" ++ nm ++ " " ++ es ++ "\x7d\x7d" ++ bs ++ "\x7b\x7belse\x7d\x7d" ++
      ecs ++ "\x7b\x7bend\x7d\x7d"
  | none => "\x7b\x7b" ++ nm ++ " " ++ es ++ "\x7d\x7d" ++ bs ++ "\x7b\x7bend\x7d\x7d"

mutual

/-- The `__str__` methods of the node classes: text is itself, an
interpolation re-wraps its expression in braces, a reference joins its
properties with dots, a call prints pipe-style when it has exactly one
argument, a string literal prints its Python repr, and blocks re-print
their keyword, expression, body and optional else clause. -/
def strN : Node → String
  | .text _ _ t => t
  | .interpolation _ _ e => "\x7b\x7b" ++ strN e ++ "\x7d\x7d"
  | .reference _ _ ps => "." ++ joinDot ps
  | .call _ _ nm [a] => strN a ++ " | " ++ nm
  | .call _ _ nm args => nm ++ "(" ++ strNArgs args ++ ")"
  | .strLit _ _ v => pyReprStr v
  | .templateNode _ _ nm e =>
    "\x7b\x7btemplate " ++ strN nm ++
      (match e with
       | some ex => " " ++ strN ex
       | none => "") ++ "\x7d\x7d"
  | .ifNode _ _ e b el => blockStr "if" (strN e) (strN b) (strNO el)
  | .rangeNode _ _ e b el => blockStr "range" (strN e) (strN b) (strNO el)
  | .withNode _ _ e b el => blockStr "with" (strN e) (strN b) (strNO el)
  | .listNode _ _ xs => strNConcat xs
termination_by n => wN n
decreasing_by
  all_goals simp only [wN, wL, wO]; omega

/-- Comma-joined serializations of call arguments (`", ".join`). -/
def strNArgs : List Node → String
  | [] => ""
  | [a] => strN a
  | a :: rest => strN a ++ ", " ++ strNArgs rest
termination_by l => wL l
decreasing_by
  all_goals simp only [wN, wL, wO]; omega

/-- Concatenated serializations of a `ListNode`'s elements. -/
def strNConcat : List Node → String
  | [] => ""
  | c :: rest => strN c ++ strNConcat rest
termination_by l => wL l
decreasing_by
  all_goals simp only [wN, wL, wO]; omega

/-- Serialization of an optional else clause. -/
def strNO : Option Node → Option String
  | none => none
  | some c => some (strN c)
termination_by o => wO o
decreasing_by
  all_goals simp only [wN, wL, wO]; omega

end

/-- Python `'\n\n'.join(xs)`. -/
def joinNN : List String → String
  | [] => ""
  | [x] => x
  | x :: rest => x ++ "\n\n" ++ joinNN rest

/-- The `__str__` method of `Env`: each template printed as
`{{define name}}body{{end}}` (the name is interpolated with `%s`, so it
is not quoted), joined with blank lines. -/
def strEnv (env : Env) : String :=
  joinNN (env.templates.map
    (fun p => "\x7b\x7bdefine " ++ p.1 ++ "\x7d\x7d" ++ strN p.2 ++
      "\x7b\x7bend\x7d\x7d"))

/-- Characters Python's default `str.strip` removes. -/
def pyIsSpace (c : Char) : Bool :=
  c = ' ' || c = '\t' || c = '\n' || c = '\r' || c = '\x0b' || c = '\x0c'

/-- Python `not token.strip()`: the token is empty or all whitespace. -/
def isBlank (s : String) : Bool :=
  s.data.all pyIsSpace

/-- Newline normalization `re.sub(r'\r\n?', '\n', code)`. -/
def normNL : List Char → List Char
  | [] => []
  | '\r' :: '\n' :: rest => '\n' :: normNL rest
  | '\r' :: rest => '\n' :: normNL rest
  | c :: rest => c :: normNL rest

/-- Scans the inside of a double-quoted string in a directive,
`\x22(?:[^\\\x22]|\\.)*\x22`, after the opening quote: the consumed
characters (escapes kept) and the rest after the closing quote. -/
def scanDq : List Char → Option (List Char × List Char)
  | [] => none
  | '\\' :: c :: rest =>
    match scanDq rest with
    | some (s, r) => some ('\\' :: c :: s, r)
    | none => none
  | '\\' :: [] => none
  | '\x22' :: rest => some ([], rest)
  | c :: rest =>
    match scanDq rest with
    | some (s, r) => some (c :: s, r)
    | none => none

/-- Greedy inner units of the directive lexer's single-quote
alternative `\x27(?:[^\\\x22]|\\.)*\x27`: each unit is a backslash
escape pair or one character that is neither a backslash nor a double
quote (note the character class of the source excludes `\x22`, not
`\x27`).  Returns the units and the unconsumed tail where the scan is
forced to stop. -/
def sqUnits : List Char → (List (List Char) × List Char)
  | [] => ([], [])
  | '\x22' :: rest => ([], '\x22' :: rest)
  | '\\' :: c :: rest =>
    let (us, t) := sqUnits rest
    (['\\', c] :: us, t)
  | '\\' :: [] => ([], ['\\'])
  | c :: rest =>
    let (us, t) := sqUnits rest
    ([c] :: us, t)

/-- Regex backtracking for that single-quote alternative: the star gives
units back until the final `\x27` can match, so the literal closes at
the last single-quote unit of the greedy run. -/
def lastQuoteSplit : List (List Char) → Option (List Char × List (List Char))
  | [] => none
  | u :: rest =>
    match lastQuoteSplit rest with
    | some (inner, after) => some (u ++ inner, after)
    | none => if u = ['\x27'] then some ([], rest) else none

/-- Scans the inside of a single-quoted string in a directive after the
opening quote: the consumed characters and the rest of the input. -/
def scanSq (cs : List Char) : Option (List Char × List Char) :=
  let (us, t) := sqUnits cs
  match lastQuoteSplit us with
  | some (inner, after) => some (inner, after.flatten ++ t)
  | none => none

/-- Scans the interior of a `{{...}}` directive after the opening
braces: content characters are anything but `}`, `\x22` or `\x27`, or a
quoted string; the directive closes at the first unquoted `}`, which
must start `}}`.  Returns the interior and the rest after `}}`. -/
def scanDirTail (fuel : Nat) : List Char → Option (List Char × List Char)
  | [] => none
  | '\x7d' :: rest =>
    match rest with
    | '\x7d' :: rest2 => some ([], rest2)
    | _ => none
  | '\x22' :: rest =>
    match fuel with
    | 0 => none
    | fuel2 + 1 =>
      match scanDq rest with
      | some (inner, rest2) =>
        match scanDirTail fuel2 rest2 with
        | some (c, r) => some ('\x22' :: (inner ++ '\x22' :: c), r)
        | none => none
      | none => none
  | '\x27' :: rest =>
    match fuel with
    | 0 => none
    | fuel2 + 1 =>
      match scanSq rest with
      | some (inner, rest2) =>
        match scanDirTail fuel2 rest2 with
        | some (c, r) => some ('\x27' :: (inner ++ '\x27' :: c), r)
        | none => none
      | none => none
  | c :: rest =>
    match fuel with
    | 0 => none
    | fuel2 + 1 =>
      match scanDirTail fuel2 rest with
      | some (cc, r) => some (c :: cc, r)
      | none => none

/-- The token split of `parse_templates` (its `re.split` with a
capturing group): literal-text pieces, possibly empty, alternating with
whole `{{...}}` directive tokens.  Where no directive match starts, the
search resumes one character further, as the regex engine does. -/
def splitTokensAux (fuel : Nat) (acc : List Char) (cs : List Char) :
    List String :=
  match fuel with
  | 0 => [String.mk (acc ++ cs)]
  | fuel2 + 1 =>
    match cs with
    | [] => [String.mk acc]
    | '\x7b' :: '\x7b' :: rest =>
      match scanDirTail (rest.length + 1) rest with
      | some (content, rest2) =>
        String.mk acc ::
          String.mk ('\x7b' :: '\x7b' :: (content ++ ['\x7d', '\x7d'])) ::
            splitTokensAux fuel2 [] rest2
      | none => splitTokensAux fuel2 (acc ++ ['\x7b']) ('\x7b' :: rest)
    | c :: rest => splitTokensAux fuel2 (acc ++ [c]) rest

/-- Token split of normalized source code. -/
def splitTokens (code : String) : List String :=
  splitTokensAux (code.data.length + 1) [] code.data

/-- Number of newlines in a token (`len(token.split('\n')) - 1`). -/
def countNL (s : String) : Nat :=
  (s.data.filter (fun c => c = '\n')).length

/-- The `lines` table: the starting line of each token, with one extra
entry for end of input.  Lines are 0-based, as in the source
(`line = 0`). -/
def linesOf : Nat → List String → List Nat
  | line, [] => [line]
  | line, t :: rest => line :: linesOf (line + countNL t) rest

/-- Dropping trailing whitespace-only tokens before parsing. -/
def trimTrailing (tokens : List String) : List String :=
  ((tokens.reverse).dropWhile isBlank).reverse

/-- Expression punctuation characters `[()\|,]`. -/
def isExprPunct (c : Char) : Bool :=
  c = '(' || c = ')' || c = '|' || c = ','

/-- Expression whitespace characters `[\t\n\r ]`. -/
def isExprWs (c : Char) : Bool :=
  c = '\t' || c = '\n' || c = '\r' || c = ' '

/-- Characters of a run token `[^\t\n\r \x27\x22()\|,]+`. -/
def isExprRun (c : Char) : Bool :=
  !(isExprWs c) && !(isExprPunct c) && c ≠ '\x27' && c ≠ '\x22'

/-- The quoted alternatives of the expression tokenizer,
`\x27(?:[^\\\x27]|\\.)\x27` and `\x22(?:[^\\\x22]|\\.)\x22`: exactly one
inner unit between the quotes (the star is missing in the source), so
only one-character or one-escape contents lex as string literals. -/
def scanQuoted1 (q : Char) : List Char → Option (String × List Char)
  | '\\' :: y :: r0 :: rest2 =>
    if r0 = q then some (String.mk [q, '\\', y, q], rest2) else none
  | '\\' :: _ => none
  | x :: r0 :: rest2 =>
    if x = q then none
    else if r0 = q then some (String.mk [q, x, q], rest2) else none
  | _ => none

/-- The `re.findall` tokenizer of `parse_expr_prefix`: runs of
non-breaking characters, whitespace runs, single punctuation characters,
and one-unit quoted literals; characters matching no alternative (such
as a quote that does not open a one-unit literal) are skipped. -/
def exprTokensAux (fuel : Nat) (cs : List Char) : List String :=
  match fuel with
  | 0 => []
  | fuel2 + 1 =>
    match cs with
    | [] => []
    | c :: rest =>
      if isExprRun c then
        String.mk ((c :: rest).takeWhile isExprRun) ::
          exprTokensAux fuel2 ((c :: rest).dropWhile isExprRun)
      else if isExprWs c then
        String.mk ((c :: rest).takeWhile isExprWs) ::
          exprTokensAux fuel2 ((c :: rest).dropWhile isExprWs)
      else if isExprPunct c then
        String.mk [c] :: exprTokensAux fuel2 rest
      else
        match scanQuoted1 c rest with
        | some (tok, rest2) => tok :: exprTokensAux fuel2 rest2
        | none => exprTokensAux fuel2 rest

/-- Expression tokens of a directive interior. -/
def exprTokens (s : String) : List String :=
  exprTokensAux (s.data.length + 1) s.data

/-- The identifier test of `parse_name`:
`re.search(r'^[A-Za-z][A-Za-z0-9]*$', etok)`. -/
def isIdent (s : String) : Bool :=
  match s.data with
  | [] => false
  | c :: rest => c.isAlpha && rest.all (fun x => x.isAlpha || x.isDigit)

/-- One backslash escape decoded as Python's `string_escape` codec does
(`unescape`): the standard escapes, single-digit octals, an unknown
escape kept verbatim, and `\x` (which requires hex digits it does not
have in a one-unit literal) a decode error. -/
def pyUnescapePair (y : Char) : Option String :=
  if y = 'n' then some "\n"
  else if y = 't' then some "\t"
  else if y = 'r' then some "\r"
  else if y = '\\' then some "\\"
  else if y = '\x27' then some "\x27"
  else if y = '\x22' then some "\x22"
  else if y = 'a' then some "\x07"
  else if y = 'b' then some "\x08"
  else if y = 'f' then some "\x0c"
  else if y = 'v' then some "\x0b"
  else if y = 'x' then none
  else if '0' ≤ y && y ≤ '7' then
    some (String.singleton (Char.ofNat (y.toNat - '0'.toNat)))
  else some (String.mk ['\\', y])

/-- The `unescape` helper: `str_lit[1:-1].decode('string_escape')` for
the one-unit literals the tokenizer produces.  `none` models the caught
decode failure, which `unescape` turns into a parse error. -/
def unescapeLit (lit : String) : Option String :=
  let inner := ((lit.data.drop 1).dropLast)
  match inner with
  | ['\\', y] => pyUnescapePair y
  | _ => some (String.mk inner)

/-- A formatted parse failure, `Exception('%s:%s: %s' ...)`. -/
def diag (src : String) (line : Nat) (msg : String) : PyErr :=
  .exc (src ++ ":" ++ toString line ++ ": " ++ msg)

/-- The closure context of `parse_expr_prefix`: the source name and —
because the inner `expect` indexes it — the outer statement token list,
together with the expression text and its token list. -/
structure ExprCtx where
  src : String
  tokens : List String
  exprText : String
  etokens : List String

/-- The `skip_ignorable` helper: consumes whitespace tokens, adding the
newlines they contain to the line counter. -/
def skipIgn (ctx : ExprCtx) (fuel : Nat) (line epos : Nat) : Nat × Nat :=
  match fuel with
  | 0 => (line, epos)
  | fuel2 + 1 =>
    match ctx.etokens.get? epos with
    | some t =>
      if isBlank t then skipIgn ctx fuel2 (line + countNL t) (epos + 1)
      else (line, epos)
    | none => (line, epos)

/-- The inner `expect` of `parse_expr_prefix`.  Its bounds check uses
`etokens`, but the comparison reads `tokens[epos]` — the outer
statement token list captured by the closure, not the expression token
list.  An `epos` past the end of that outer list is an uncaught
`IndexError`. -/
def eExpect (ctx : ExprCtx) (line epos : Nat) (token : String) :
    Except PyErr Nat :=
  if epos = ctx.etokens.length then
    .error (diag ctx.src line ("Expected " ++ token ++ " at end of input"))
  else
    match ctx.tokens.get? epos with
    | none => .error .indexError
    | some t =>
      if t ≠ token then
        .error (diag ctx.src line ("Expected " ++ token ++ ", got " ++ t))
      else .ok (epos + 1)

/-- The `parse_name` helper: skips ignorable tokens, then requires an
identifier token.  Returns the name, the next position and the updated
line counter. -/
def parseName (ctx : ExprCtx) (line epos : Nat) :
    Except PyErr (String × Nat × Nat) :=
  let (line2, epos2) := skipIgn ctx (ctx.etokens.length + 1) line epos
  match ctx.etokens.get? epos2 with
  | none =>
    .error (diag ctx.src line2
      ("missing function name at end of " ++ ctx.exprText))
  | some etok =>
    if !(isIdent etok) then
      .error (diag ctx.src line2 ("expected function name but got " ++ etok))
    else .ok (etok, epos2 + 1, line2)

/-- Python `str.split('.')` on a string. -/
def pySplitDot (s : String) : List String :=
  let parts := s.data.foldr
    (fun c acc =>
      match acc with
      | [] => [[c]]
      | p :: ps => if c = '.' then [] :: p :: ps else (c :: p) :: ps)
    [[]]
  parts.map String.mk

mutual

/-- The `parse_pipeline` level of the expression parser: one atom,
then `| name` suffixes folded left into single-argument `CallNode`s
whose line is the accumulated expression's line. -/
def parsePipeline (ctx : ExprCtx) (fuel line epos : Nat) :
    Except PyErr (Node × Nat × Nat) :=
  match fuel with
  | 0 => .error (.exc "recursion limit")
  | fuel2 + 1 =>
    match parseAtomE ctx fuel2 line epos with
    | .ok (expr, line2, epos2) =>
      let (line3, epos3) := skipIgn ctx (ctx.etokens.length + 1) line2 epos2
      pipeLoop ctx fuel2 expr line3 epos3
    | .error e => .error e
termination_by structural fuel

/-- The `while` loop of `parse_pipeline`. -/
def pipeLoop (ctx : ExprCtx) (fuel : Nat) (expr : Node) (line epos : Nat) :
    Except PyErr (Node × Nat × Nat) :=
  match fuel with
  | 0 => .error (.exc "recursion limit")
  | fuel2 + 1 =>
    if ctx.etokens.get? epos = some "|" then
      match parseName ctx line (epos + 1) with
      | .ok (right, epos2, line2) =>
        let expr2 := Node.call ctx.src (nodeLine expr) right [expr]
        let (line3, epos3) := skipIgn ctx (ctx.etokens.length + 1) line2 epos2
        pipeLoop ctx fuel2 expr2 line3 epos3
      | .error e => .error e
    else .ok (expr, line, epos)
termination_by structural fuel

/-- The expression-level `parse_atom`: a reference for a token starting
with a dot (note the source takes `etoken[1]`, the single second
character, not `etoken[1:]`, before splitting on dots), a string
literal for a quoted token, otherwise a `name(arg, ...)` call whose
parenthesis checks go through the buggy inner `expect`. -/
def parseAtomE (ctx : ExprCtx) (fuel line epos : Nat) :
    Except PyErr (Node × Nat × Nat) :=
  match fuel with
  | 0 => .error (.exc "recursion limit")
  | fuel2 + 1 =>
    let (line2, epos2) := skipIgn ctx (ctx.etokens.length + 1) line epos
    match ctx.etokens.get? epos2 with
    | none =>
      .error (diag ctx.src line2
        ("missing expression part at end of " ++ ctx.exprText))
    | some etoken =>
      match etoken.data with
      | '.' :: tail =>
        match tail with
        | [] => .error .indexError
        | c1 :: _ =>
          .ok (.reference ctx.src line2 (pySplitDot (String.singleton c1)),
            line2, epos2 + 1)
      | c0 :: _ =>
        if c0 = '\x22' || c0 = '\x27' then
          match unescapeLit etoken with
          | some v => .ok (.strLit ctx.src line2 v, line2, epos2 + 1)
          | none =>
            .error (diag ctx.src line2 ("invalid string literal " ++ etoken))
        else
          match parseName ctx line2 epos2 with
          | .ok (name, epos3, line3) =>
            let (line4, epos4) := skipIgn ctx (ctx.etokens.length + 1) line3 epos3
            match eExpect ctx line4 epos4 "(" with
            | .ok epos5 =>
              -- the source then runs `skip_ignorable(epos + 1)`, although
              -- `expect` has already advanced past the parenthesis
              let (line5, epos5b) :=
                skipIgn ctx (ctx.etokens.length + 1) line4 (epos5 + 1)
              match ctx.etokens.get? epos5b with
              | some t =>
                if t ≠ ")" then
                  match argLoop ctx fuel2 line5 epos5b [] with
                  | .ok (args, line6, epos6) =>
                    match eExpect ctx line6 epos6 ")" with
                    | .ok epos7 =>
                      .ok (.call ctx.src line2 name args, line6, epos7)
                    | .error e => .error e
                  | .error e => .error e
                else
                  match eExpect ctx line5 epos5b ")" with
                  | .ok epos7 => .ok (.call ctx.src line2 name [], line5, epos7)
                  | .error e => .error e
              | none =>
                match eExpect ctx line5 epos5b ")" with
                | .ok epos7 => .ok (.call ctx.src line2 name [], line5, epos7)
                | .error e => .error e
            | .error e => .error e
          | .error e => .error e
      | [] => .error (diag ctx.src line2 "missing expression part")
termination_by structural fuel

/-- The argument loop of the expression-level `parse_atom`: pipelines
separated by commas, stopping before a token that is not a comma. -/
def argLoop (ctx : ExprCtx) (fuel line epos : Nat) (acc : List Node) :
    Except PyErr (List Node × Nat × Nat) :=
  match fuel with
  | 0 => .error (.exc "recursion limit")
  | fuel2 + 1 =>
    match parsePipeline ctx fuel2 line epos with
    | .ok (arg, line2, epos2) =>
      let (line3, epos3) := skipIgn ctx (ctx.etokens.length + 1) line2 epos2
      if ctx.etokens.get? epos3 = some "," then
        argLoop ctx fuel2 line3 (epos3 + 1) (acc ++ [arg])
      else .ok (acc ++ [arg], line3, epos3)
    | .error e => .error e
termination_by structural fuel

end

/-- The `parse_expr_prefix` entry: tokenize the expression text, parse
one pipeline, skip trailing ignorable tokens, and return the node and
the unconsumed remainder text. -/
def parseExprPre (src : String) (tokens : List String) (line : Nat)
    (exprText : String) : Except PyErr (Node × String) :=
  let ctx : ExprCtx := ⟨src, tokens, exprText, exprTokens exprText⟩
  let fuel := 2 * ctx.etokens.length + 8
  match parsePipeline ctx fuel line 0 with
  | .ok (expr, line2, epos2) =>
    let (_, epos3) := skipIgn ctx (ctx.etokens.length + 1) line2 epos2
    .ok (expr, String.join ((ctx.etokens.drop epos3)))
  | .error e => .error e

/-- The `parse_expr` helper: a full-expression parse whose remainder
must be empty, otherwise `fail(pos, 'Trailing content ...')`. -/
def parseExprFull (src : String) (tokens : List String) (lines : List Nat)
    (pos : Nat) (exprText : String) : Except PyErr Node :=
  match parseExprPre src tokens (lines.getD pos 0) exprText with
  | .ok (expr, remainder) =>
    if remainder ≠ "" then
      .error (diag src (lines.getD pos 0)
        ("Trailing content in expression: " ++
          String.mk (exprText.data.take (exprText.data.length - remainder.data.length)) ++
          "^" ++ remainder))
    else .ok expr
  | .error e => .error e

/-- The closure context of the statement-level parser: source name,
token list (after trailing-blank trimming) and the per-token line table
(computed before trimming, with an end-of-input entry). -/
structure PCtx where
  src : String
  tokens : List String
  lines : List Nat

/-- The outer `expect`: advance past the expected statement token or
fail with source and line information. -/
def sExpect (C : PCtx) (pos : Nat) (token : String) : Except PyErr Nat :=
  if pos = C.tokens.length then
    .error (diag C.src (C.lines.getD pos 0)
      ("Expected " ++ token ++ " at end of input"))
  else
    match C.tokens.get? pos with
    | none => .error .indexError
    | some t =>
      if t ≠ token then
        .error (diag C.src (C.lines.getD pos 0)
          ("Expected " ++ token ++ ", got " ++ t))
      else .ok (pos + 1)

/-- Word characters for the regex word boundary `\b`. -/
def isWordChar (c : Char) : Bool :=
  c.isAlpha || c.isDigit || c = '_'

/-- One keyword alternative of the directive-classification regex: the
keyword followed by a word boundary. -/
def matchKw (kw : String) (cs : List Char) : Option (List Char) :=
  if cs.take kw.length = kw.data then
    let rest := cs.drop kw.length
    match rest with
    | [] => some []
    | c :: _ => if isWordChar c then none else some rest
  else none

/-- The keyword group `(if|range|with|template|end|else)\b` of
`parse_atom`'s classification regex, alternatives tried in order. -/
def matchKeyword (interior : List Char) : Option (String × List Char) :=
  match matchKw "if" interior with
  | some r => some ("if", r)
  | none =>
    match matchKw "range" interior with
    | some r => some ("range", r)
    | none =>
      match matchKw "with" interior with
      | some r => some ("with", r)
      | none =>
        match matchKw "template" interior with
        | some r => some ("template", r)
        | none =>
          match matchKw "end" interior with
          | some r => some ("end", r)
          | none =>
            match matchKw "else" interior with
            | some r => some ("else", r)
            | none => none

/-- The classification regex
`^\{\{(?:(if|range|with|template|end|else)\b)?(.*)\}\}$` applied to a
token: `none` when it does not match (a text token), otherwise the
optional keyword and the rest of the interior.  `.*` does not match a
newline, and `$` also matches just before one final newline. -/
def classifyToken (tok : String) : Option (Option String × String) :=
  let cs0 := tok.data
  let cs := if cs0.getLast? = some '\n' then cs0.dropLast else cs0
  if 4 ≤ cs.length &&
      decide (cs.take 2 = ['\x7b', '\x7b']) &&
      decide (cs.drop (cs.length - 2) = ['\x7d', '\x7d']) then
    let interior := ((cs.drop 2).dropLast).dropLast
    if interior.contains '\n' then none
    else
      match matchKeyword interior with
      | some (kw, rest) => some (some kw, String.mk rest)
      | none => some (none, String.mk interior)
  else none

/-- Python `token.startswith('{{define')`. -/
def startsWithDefine (tok : String) : Bool :=
  tok.data.take 8 = ['\x7b', '\x7b', 'd', 'e', 'f', 'i', 'n', 'e']

/-- The slice `token[len('{{define'):-2]` taken by `parse_define`. -/
def sliceDefine (s : String) : String :=
  String.mk ((s.data.take (s.data.length - 2)).drop 8)

/-- The slice `token[2:-2]` taken for an interpolation's expression. -/
def sliceInterp (s : String) : String :=
  String.mk ((s.data.take (s.data.length - 2)).drop 2)

/-- The `{{else}}` token. -/
def elseTok : String := "\x7b\x7belse\x7d\x7d"

/-- The `{{end}}` token. -/
def endTok : String := "\x7b\x7bend\x7d\x7d"

mutual

/-- The `parse_list` function: a run of statement nodes; a single child
is returned as itself, otherwise a `ListNode` carrying the line of the
first token. -/
def parseList (C : PCtx) (fuel pos : Nat) : Except PyErr (Node × Nat) :=
  match fuel with
  | 0 => .error (.exc "recursion limit")
  | fuel2 + 1 =>
    match listLoop C fuel2 pos [] with
    | .ok (cs, pos2) =>
      match cs with
      | [c] => .ok (c, pos2)
      | _ => .ok (.listNode C.src (C.lines.getD pos 0) cs, pos2)
    | .error e => .error e
termination_by structural fuel

/-- The `while` loop of `parse_list`: collect atoms until one is
`None` or the tokens run out. -/
def listLoop (C : PCtx) (fuel pos : Nat) (acc : List Node) :
    Except PyErr (List Node × Nat) :=
  match fuel with
  | 0 => .error (.exc "recursion limit")
  | fuel2 + 1 =>
    if pos < C.tokens.length then
      match parseAtomS C fuel2 pos with
      | .ok (some atom, pos2) => listLoop C fuel2 pos2 (acc ++ [atom])
      | .ok (none, pos2) => .ok (acc, pos2)
      | .error e => .error e
    else .ok (acc, pos)
termination_by structural fuel

/-- The statement-level `parse_atom`: a text node for a non-directive
token, an interpolation for a keywordless directive, `none` (without
consuming) for `end`/`else`, a `TemplateNode` for `template` (name
parsed as an expression prefix, optional trailing data expression), and
a block parse for `if`/`range`/`with`. -/
def parseAtomS (C : PCtx) (fuel pos : Nat) : Except PyErr (Option Node × Nat) :=
  match fuel with
  | 0 => .error (.exc "recursion limit")
  | fuel2 + 1 =>
    let token := C.tokens.getD pos ""
    match classifyToken token with
    | none => .ok (some (.text C.src (C.lines.getD pos 0) token), pos + 1)
    | some (none, _) =>
      match parseExprFull C.src C.tokens C.lines pos (sliceInterp token) with
      | .ok e =>
        .ok (some (.interpolation C.src (C.lines.getD pos 0) e), pos + 1)
      | .error e2 => .error e2
    | some (some kw, rest) =>
      if kw = "end" || kw = "else" then .ok (none, pos)
      else if kw = "template" then
        match parseExprPre C.src C.tokens (C.lines.getD pos 0) rest with
        | .ok (tname, rem) =>
          if !(isBlank rem) then
            match parseExprFull C.src C.tokens C.lines pos rem with
            | .ok ex =>
              .ok (some (.templateNode C.src (C.lines.getD pos 0) tname
                (some ex)), pos + 1)
            | .error e2 => .error e2
          else
            .ok (some (.templateNode C.src (C.lines.getD pos 0) tname none),
              pos + 1)
        | .error e2 => .error e2
      else
        match parseExprFull C.src C.tokens C.lines pos rest with
        | .ok expr => parseBlockS C fuel2 kw pos expr
        | .error e2 => .error e2
termination_by structural fuel

/-- The `parse_block` function: body list, optional `{{else}}` list,
required `{{end}}`, then the `IfNode`/`RangeNode`/`WithNode`
constructor chosen by the keyword. -/
def parseBlockS (C : PCtx) (fuel : Nat) (kw : String) (pos : Nat)
    (expr : Node) : Except PyErr (Option Node × Nat) :=
  match fuel with
  | 0 => .error (.exc "recursion limit")
  | fuel2 + 1 =>
    match parseList C fuel2 (pos + 1) with
    | .ok (body, tpos) =>
      match
        (if C.tokens.get? tpos = some elseTok then
          match parseList C fuel2 (tpos + 1) with
          | .ok (ec, tpos2) => .ok (some ec, tpos2)
          | .error e => .error e
        else .ok (none, tpos) :
          Except PyErr (Option Node × Nat)) with
      | .ok (elc, tpos2) =>
        match sExpect C tpos2 endTok with
        | .ok tpos3 =>
          let line := C.lines.getD pos 0
          let node :=
            if kw = "if" then Node.ifNode C.src line expr body elc
            else if kw = "range" then Node.rangeNode C.src line expr body elc
            else Node.withNode C.src line expr body elc
          .ok (some node, tpos3)
        | .error e => .error e
      | .error e => .error e
    | .error e => .error e
termination_by structural fuel

end

/-- The `define` helper: parse a statement list as the body, fail on a
redefined template name, otherwise store the body under the name. -/
def defineTpl (C : PCtx) (fuel : Nat) (name : String) (pos : Nat)
    (tpls : List (String × Node)) :
    Except PyErr (List (String × Node) × Nat) :=
  match parseList C fuel pos with
  | .ok (body, pos2) =>
    if (dictLookup tpls name).isSome then
      .error (diag C.src (C.lines.getD pos2 0)
        ("Redefinition of " ++ pyReprStr name))
    else .ok (dictSet tpls name body, pos2)
  | .error e => .error e

/-- The `parse_define` function: parses the name expression from
`token[len('{{define'):-2]`, then evaluates it with
`expr.execute(Env(None, {}, {}))` — one argument passed to the
two-argument method `execute(self, env, out)`, an unconditional
`TypeError`.  The rest of `parse_define` (the quoted-name check,
`define`, `expect('{{end}}')`) is unreachable. -/
def parseDefine (C : PCtx) (pos : Nat) : Except PyErr Nat :=
  let token := C.tokens.getD pos ""
  match parseExprFull C.src C.tokens C.lines pos (sliceDefine token) with
  | .ok _expr => .error (.typeError "execute() takes exactly 3 arguments (2 given)")
  | .error e => .error e

/-- The driving loop of `parse_templates`: skip whitespace-only tokens,
consume `{{define}}` blocks, stop at the first other token. -/
def parseLoop (C : PCtx) (fuel pos : Nat) : Except PyErr Nat :=
  match fuel with
  | 0 => .error (.exc "recursion limit")
  | fuel2 + 1 =>
    match C.tokens.get? pos with
    | none => .ok pos
    | some token =>
      if isBlank token then parseLoop C fuel2 (pos + 1)
      else if startsWithDefine token then
        match parseDefine C pos with
        | .ok pos2 => parseLoop C fuel2 pos2
        | .error e => .error e
      else .ok pos

/-- The `parse_templates` entry point: normalize newlines, split into
tokens, build the line table, drop trailing blank tokens, run the
define pre-pass, treat leftover content as the externally named
template's body when a name is given, and fail on any remaining
unparsed content.  On success the environment holds the empty
`_BUILTINS` registry and the parsed template map. -/
def parseTemplates (src code : String) (name : Option String) :
    Except PyErr Env :=
  let codeN := String.mk (normNL code.data)
  let tokens0 := splitTokens codeN
  let lines := linesOf 0 tokens0
  let tokens := trimTrailing tokens0
  let C : PCtx := ⟨src, tokens, lines⟩
  let fuel := 2 * tokens.length + 8
  match parseLoop C fuel 0 with
  | .ok pos =>
    match
      (if pos < tokens.length then
        match name with
        | some nm => defineTpl C fuel nm pos []
        | none => .ok ([], pos)
      else .ok ([], pos) :
        Except PyErr (List (String × Node) × Nat)) with
    | .ok (tpls, pos2) =>
      if pos2 < tokens.length then
        .error (diag src (lines.getD pos2 0)
          ("unparsed content " ++ String.join (tokens.drop pos2)))
      else .ok { data := .vnone, fns := [], templates := tpls }
    | .error e => .error e
  | .error e => .error e

/-- The template map of a parse result (useful because `Env` holds
registry functions, which have no decidable equality). -/
def parseTemplatesT (src code : String) (name : Option String) :
    Except PyErr (List (String × Node)) :=
  (parseTemplates src code name).map Env.templates

/-- The `sexecute` method of `Env`: render the named template into a
fresh buffer and return the accumulated text. -/
def sexecute (env : Env) (name : String) : Except PyErr String :=
  match dictLookup env.templates name with
  | none => .error (.keyError name)
  | some root =>
    match pyExec root env (some "") with
    | .ok (some out, _) => .ok out
    | .ok (none, _) => .ok ""
    | .error e => .error e

mutual

/-- Replacing a node's children with its own children list rebuilds an
equal node — except that this needs `clone` to be the identity for the
`TemplateNode` name, proved mutually. -/
theorem withChildren_children : (n : Node) → withChildren n (children n) = .ok n
  | .text _ _ _ => by simp [withChildren, children]
  | .interpolation _ _ _ => by simp [withChildren, children]
  | .reference _ _ _ => by simp [withChildren, children]
  | .call _ _ _ _ => by simp [withChildren, children]
  | .strLit _ _ _ => by simp [withChildren, children]
  | .templateNode _ _ nm e => by
    have h := clone_ok nm
    cases e <;> simp [withChildren, children, h]
  | .ifNode _ _ _ _ el => by
    cases el <;> simp [withChildren, children, blockWC]
  | .rangeNode _ _ _ _ el => by
    cases el <;> simp [withChildren, children, blockWC]
  | .withNode _ _ _ _ el => by
    cases el <;> simp [withChildren, children, blockWC]
  | .listNode _ _ _ => by simp [withChildren, children]
termination_by n => (wN n, 0)
decreasing_by
  exact Prod.Lex.left _ _ (by simp only [wN]; omega)

/-- The `clone` method is the structural identity. -/
theorem clone_ok : (n : Node) → clone n = .ok n
  | n => by
    have h1 := cloneList_ok (children n)
    have h2 := withChildren_children n
    simp [clone, h1, h2]
termination_by n => (wN n, 2)
decreasing_by
  · exact Prod.Lex.left _ _ (wL_children_lt n)
  · exact Prod.Lex.right _ (by omega)

/-- Cloning a list of nodes is the identity. -/
theorem cloneList_ok : (l : List Node) → cloneList l = .ok l
  | [] => by simp [cloneList]
  | c :: cs => by
    have h1 := clone_ok c
    have h2 := cloneList_ok cs
    simp [cloneList, h1, h2]
termination_by l => (wL l, 1)
decreasing_by
  all_goals exact Prod.Lex.left _ _ (by simp only [wL]; omega)

end

/-- An expression node is untouched by `esc`. -/
theorem esc_of_expr (n : Node) (h : isExprNode n = true) : esc n = .ok n := by
  cases n <;> simp_all [esc, isExprNode]

/-- An expression node is untouched by the spec rewrite. -/
theorem escSpec_of_expr (n : Node) (h : isExprNode n = true) : escSpec n = n := by
  cases n <;> simp_all [escSpec, isExprNode]

mutual

/-- On templates satisfying the data-model constraint, the code's `esc`
computes exactly the rewrite the spec describes. -/
theorem esc_wf : (n : Node) → wfTemplate n = true → esc n = .ok (escSpec n)
  | .text _ _ _, _ => by
    simp [esc, isExprNode, children, escList, withChildren, escSpec]
  | .interpolation _ _ _, _ => by simp [esc, withChildren, escSpec]
  | .reference _ _ _, _ => by simp [esc, isExprNode, escSpec]
  | .call _ _ _ _, _ => by simp [esc, isExprNode, escSpec]
  | .strLit _ _ _, _ => by simp [esc, isExprNode, escSpec]
  | .templateNode _ _ nm none, h => by
    simp only [wfTemplate, wfTemplateO, Bool.and_eq_true] at h
    have h1 := esc_of_expr nm h.1
    have h2 := clone_ok nm
    have h3 := escSpec_of_expr nm h.1
    simp [esc, isExprNode, children, escList, withChildren, escSpec,
      escSpecO, h1, h2, h3]
  | .templateNode _ _ nm (some ex), h => by
    simp only [wfTemplate, wfTemplateO, Bool.and_eq_true] at h
    have h1 := esc_of_expr nm h.1
    have h2 := clone_ok nm
    have h3 := escSpec_of_expr nm h.1
    have h4 := esc_wf ex h.2
    simp [esc, isExprNode, children, escList, withChildren, escSpec,
      escSpecO, h1, h2, h3, h4]
  | .ifNode _ _ e b none, h => by
    simp only [wfTemplate, wfTemplateO, Bool.and_eq_true] at h
    have he := esc_wf e h.1.1
    have hb := esc_wf b h.1.2
    simp [esc, isExprNode, children, escList, withChildren, blockWC,
      escSpec, escSpecO, he, hb]
  | .ifNode _ _ e b (some ec), h => by
    simp only [wfTemplate, wfTemplateO, Bool.and_eq_true] at h
    have he := esc_wf e h.1.1
    have hb := esc_wf b h.1.2
    have hc := esc_wf ec h.2
    simp [esc, isExprNode, children, escList, withChildren, blockWC,
      escSpec, escSpecO, he, hb, hc]
  | .rangeNode _ _ e b none, h => by
    simp only [wfTemplate, wfTemplateO, Bool.and_eq_true] at h
    have he := esc_wf e h.1.1
    have hb := esc_wf b h.1.2
    simp [esc, isExprNode, children, escList, withChildren, blockWC,
      escSpec, escSpecO, he, hb]
  | .rangeNode _ _ e b (some ec), h => by
    simp only [wfTemplate, wfTemplateO, Bool.and_eq_true] at h
    have he := esc_wf e h.1.1
    have hb := esc_wf b h.1.2
    have hc := esc_wf ec h.2
    simp [esc, isExprNode, children, escList, withChildren, blockWC,
      escSpec, escSpecO, he, hb, hc]
  | .withNode _ _ e b none, h => by
    simp only [wfTemplate, wfTemplateO, Bool.and_eq_true] at h
    have he := esc_wf e h.1.1
    have hb := esc_wf b h.1.2
    simp [esc, isExprNode, children, escList, withChildren, blockWC,
      escSpec, escSpecO, he, hb]
  | .withNode _ _ e b (some ec), h => by
    simp only [wfTemplate, wfTemplateO, Bool.and_eq_true] at h
    have he := esc_wf e h.1.1
    have hb := esc_wf b h.1.2
    have hc := esc_wf ec h.2
    simp [esc, isExprNode, children, escList, withChildren, blockWC,
      escSpec, escSpecO, he, hb, hc]
  | .listNode _ _ xs, h => by
    have hl := escList_wf xs (by simpa [wfTemplate] using h)
    simp [esc, isExprNode, children, withChildren, escSpec, hl]
termination_by n => (wN n, 2)
decreasing_by
  all_goals exact Prod.Lex.left _ _ (by simp only [wN, wL, wO]; omega)

/-- List version of `esc_wf`. -/
theorem escList_wf :
    (l : List Node) → wfTemplateL l = true → escList l = .ok (escSpecL l)
  | [], _ => by simp [escList, escSpecL]
  | c :: cs, h => by
    simp only [wfTemplateL, Bool.and_eq_true] at h
    have h1 := esc_wf c h.1
    have h2 := escList_wf cs h.2
    simp [escList, escSpecL, h1, h2]
termination_by l => (wL l, 1)
decreasing_by
  all_goals exact Prod.Lex.left _ _ (by simp only [wN, wL]; omega)

end

mutual

/-- The spec rewrite preserves the data-model constraint on template
names. -/
theorem wf_escSpec :
    (n : Node) → wfTemplate n = true → wfTemplate (escSpec n) = true
  | .text _ _ _, _ => by simp [escSpec, wfTemplate]
  | .interpolation _ _ _, _ => by simp [escSpec, wfTemplate]
  | .reference _ _ _, _ => by simp [escSpec, wfTemplate]
  | .call _ _ _ _, _ => by simp [escSpec, wfTemplate]
  | .strLit _ _ _, _ => by simp [escSpec, wfTemplate]
  | .templateNode _ _ nm none, h => by
    simp only [wfTemplate, wfTemplateO, Bool.and_eq_true] at h
    simp [escSpec, escSpecO, wfTemplate, wfTemplateO, escSpec_of_expr nm h.1,
      h.1]
  | .templateNode _ _ nm (some ex), h => by
    simp only [wfTemplate, wfTemplateO, Bool.and_eq_true] at h
    simp [escSpec, escSpecO, wfTemplate, wfTemplateO, escSpec_of_expr nm h.1,
      h.1, wf_escSpec ex h.2]
  | .ifNode _ _ e b none, h => by
    simp only [wfTemplate, wfTemplateO, Bool.and_eq_true] at h
    simp [escSpec, escSpecO, wfTemplate, wfTemplateO, wf_escSpec e h.1.1,
      wf_escSpec b h.1.2]
  | .ifNode _ _ e b (some ec), h => by
    simp only [wfTemplate, wfTemplateO, Bool.and_eq_true] at h
    simp [escSpec, escSpecO, wfTemplate, wfTemplateO, wf_escSpec e h.1.1,
      wf_escSpec b h.1.2, wf_escSpec ec h.2]
  | .rangeNode _ _ e b none, h => by
    simp only [wfTemplate, wfTemplateO, Bool.and_eq_true] at h
    simp [escSpec, escSpecO, wfTemplate, wfTemplateO, wf_escSpec e h.1.1,
      wf_escSpec b h.1.2]
  | .rangeNode _ _ e b (some ec), h => by
    simp only [wfTemplate, wfTemplateO, Bool.and_eq_true] at h
    simp [escSpec, escSpecO, wfTemplate, wfTemplateO, wf_escSpec e h.1.1,
      wf_escSpec b h.1.2, wf_escSpec ec h.2]
  | .withNode _ _ e b none, h => by
    simp only [wfTemplate, wfTemplateO, Bool.and_eq_true] at h
    simp [escSpec, escSpecO, wfTemplate, wfTemplateO, wf_escSpec e h.1.1,
      wf_escSpec b h.1.2]
  | .withNode _ _ e b (some ec), h => by
    simp only [wfTemplate, wfTemplateO, Bool.and_eq_true] at h
    simp [escSpec, escSpecO, wfTemplate, wfTemplateO, wf_escSpec e h.1.1,
      wf_escSpec b h.1.2, wf_escSpec ec h.2]
  | .listNode _ _ xs, h => by
    simp only [wfTemplate] at h
    simp [escSpec, wfTemplate, wfL_escSpec xs h]
termination_by n => (wN n, 1)
decreasing_by
  all_goals exact Prod.Lex.left _ _ (by simp only [wN, wL, wO]; omega)

/-- List version of `wf_escSpec`. -/
theorem wfL_escSpec :
    (l : List Node) → wfTemplateL l = true → wfTemplateL (escSpecL l) = true
  | [], _ => by simp [escSpecL, wfTemplateL]
  | c :: cs, h => by
    simp only [wfTemplateL, Bool.and_eq_true] at h
    simp [escSpecL, wfTemplateL, wf_escSpec c h.1, wfL_escSpec cs h.2]
termination_by l => (wL l, 0)
decreasing_by
  all_goals exact Prod.Lex.left _ _ (by simp only [wN, wL]; omega)

end

mutual

/-- The one-pass double-wrapping rewrite is exactly the composition of
the escaping rewrite with itself. -/
theorem escSpecTwice_eq : (n : Node) → escSpecTwice n = escSpec (escSpec n)
  | .text _ _ _ => by simp [escSpec, escSpecTwice]
  | .interpolation _ _ _ => by simp [escSpec, escSpecTwice]
  | .reference _ _ _ => by simp [escSpec, escSpecTwice]
  | .call _ _ _ _ => by simp [escSpec, escSpecTwice]
  | .strLit _ _ _ => by simp [escSpec, escSpecTwice]
  | .templateNode _ _ nm none => by
    simp [escSpec, escSpecO, escSpecTwice, escSpecTwiceO, escSpecTwice_eq nm]
  | .templateNode _ _ nm (some ex) => by
    simp [escSpec, escSpecO, escSpecTwice, escSpecTwiceO, escSpecTwice_eq nm,
      escSpecTwice_eq ex]
  | .ifNode _ _ e b none => by
    simp [escSpec, escSpecO, escSpecTwice, escSpecTwiceO, escSpecTwice_eq e,
      escSpecTwice_eq b]
  | .ifNode _ _ e b (some ec) => by
    simp [escSpec, escSpecO, escSpecTwice, escSpecTwiceO, escSpecTwice_eq e,
      escSpecTwice_eq b, escSpecTwice_eq ec]
  | .rangeNode _ _ e b none => by
    simp [escSpec, escSpecO, escSpecTwice, escSpecTwiceO, escSpecTwice_eq e,
      escSpecTwice_eq b]
  | .rangeNode _ _ e b (some ec) => by
    simp [escSpec, escSpecO, escSpecTwice, escSpecTwiceO, escSpecTwice_eq e,
      escSpecTwice_eq b, escSpecTwice_eq ec]
  | .withNode _ _ e b none => by
    simp [escSpec, escSpecO, escSpecTwice, escSpecTwiceO, escSpecTwice_eq e,
      escSpecTwice_eq b]
  | .withNode _ _ e b (some ec) => by
    simp [escSpec, escSpecO, escSpecTwice, escSpecTwiceO, escSpecTwice_eq e,
      escSpecTwice_eq b, escSpecTwice_eq ec]
  | .listNode _ _ xs => by
    simp [escSpec, escSpecTwice, escSpecTwiceL_eq xs]
termination_by n => (wN n, 1)
decreasing_by
  all_goals exact Prod.Lex.left _ _ (by simp only [wN, wL, wO]; omega)

/-- List version of `escSpecTwice_eq`. -/
theorem escSpecTwiceL_eq :
    (l : List Node) → escSpecTwiceL l = escSpecL (escSpecL l)
  | [] => by simp [escSpecL, escSpecTwiceL]
  | c :: cs => by
    simp [escSpecL, escSpecTwiceL, escSpecTwice_eq c, escSpecTwiceL_eq cs]
termination_by l => (wL l, 0)
decreasing_by
  all_goals exact Prod.Lex.left _ _ (by simp only [wN, wL]; omega)

end

/-- Looking a key up right after `d[k] = v` yields `v`. -/
theorem dictLookup_dictSet_self {α : Type} (k : String) (v : α) :
    (d : List (String × α)) → dictLookup (dictSet d k v) k = some v
  | [] => by simp [dictSet, dictLookup]
  | (k2, w) :: rest => by
    by_cases hk : k2 = k
    · subst hk
      simp [dictSet, dictLookup]
    · simp [dictSet, dictLookup, hk, dictLookup_dictSet_self k v rest]

/-- Shared characterization of `escape(env, name)`: on an environment
whose named template satisfies the data-model constraint, it returns the
environment with `escape_html` registered under `html` and the named
template's root replaced by the spec rewrite. -/
theorem escapeTemplate_eq (env : Env) (name : String) (root : Node)
    (hlk : dictLookup env.templates name = some root)
    (hwf : wfTemplate root = true) :
    escapeTemplate env name =
      .ok { data := env.data,
            fns := dictSet env.fns "html" escapeHtmlFn,
            templates := dictSet env.templates name (escSpec root) } := by
  simp [escapeTemplate, hlk, esc_wf root hwf]

/-- Claim C1: the spec says parsing `{{define "t"}}Hi {{.who}}!{{end}}`
with no external name succeeds and executing `t` on `{"who": "Sam"}`
appends `Hi Sam!`.  The code instead raises: `parse_define` evaluates
the name expression with `expr.execute(Env(None, {}, {}))`, passing one
argument to the two-argument method `execute(self, env, out)`, an
unconditional `TypeError`, so the parse of any `{{define}}` fails and
no environment is returned. -/
theorem c1_define_parse_raises :
    parseTemplatesT "src"
        "\x7b\x7bdefine \x22t\x22\x7d\x7dHi \x7b\x7b.who\x7d\x7d!\x7b\x7bend\x7d\x7d"
        none =
      .error (.typeError "execute() takes exactly 3 arguments (2 given)") := rfl

/-- Claim C2: the spec says parsing `.a.b` yields a `ReferenceNode`
whose properties are the full identifier chain, so that it evaluates to
`5` on `{"a": {"b": 5}}`.  The code takes `etoken[1]` — the single
second character — instead of `etoken[1:]`, so `.a.b` parses to
properties `("a",)` and the parsed node evaluates to the whole inner
dict.  The last three conjuncts show the truncation and that the
property walk itself (short-circuiting on an absent value) behaves as
the spec describes on the full chain. -/
theorem c2_reference_chain_truncated :
    parseTemplatesT "src" "\x7b\x7b.a.b\x7d\x7d" (some "t") =
      .ok [("t", .interpolation "src" 0 (.reference "src" 0 ["a"]))] ∧
    refWalk (.vdict [("a", .vdict [("b", .vint 5)])]) ["a"] =
      .ok (.vdict [("b", .vint 5)]) ∧
    refWalk (.vdict [("a", .vdict [("b", .vint 5)])]) ["a", "b"] =
      .ok (.vint 5) ∧
    refWalk (.vdict [("a", .vnone)]) ["a", "b"] = .ok .vnone :=
  ⟨rfl, rfl, rfl, rfl⟩

/-- Claim C3: the spec says `.x | f | g` parses to the same AST as
`g(f(.x))`.  The pipeline form does produce the nested single-argument
`CallNode`s, but the call form fails to parse at all: the inner
`expect` of `parse_expr_prefix` compares `tokens[epos]` — the outer
statement token list — instead of `etokens[epos]`, so the opening
parenthesis is never accepted. -/
theorem c3_pipeline_call_divergence :
    parseTemplatesT "src" "\x7b\x7b.x | f | g\x7d\x7d" (some "t") =
      .ok [("t", .interpolation "src" 0
        (.call "src" 0 "g" [.call "src" 0 "f" [.reference "src" 0 ["x"]]]))] ∧
    parseTemplatesT "src" "\x7b\x7bg(f(.x))\x7d\x7d" (some "t") =
      .error (.exc "src:0: Expected (, got \x7b\x7bg(f(.x))\x7d\x7d") :=
  ⟨rfl, rfl⟩

/-- Claim C4: the spec says re-parsing a serialized environment
succeeds with identical rendering.  `Env.__str__` interpolates the
template name with `%s` and so omits the quotes: the environment parsed
from body `Hello` under external name `t` serializes to
`{{define t}}Hello{{end}}`, whose re-parse fails (the unquoted `t`
is parsed as a function call and hits `Expected ( at end of input`),
so no round-trip environment exists. -/
theorem c4_roundtrip_reparse_fails :
    parseTemplates "src" "Hello" (some "t") =
      .ok ⟨.vnone, [], [("t", .text "src" 0 "Hello")]⟩ ∧
    strEnv ⟨.vnone, [], [("t", .text "src" 0 "Hello")]⟩ =
      "\x7b\x7bdefine t\x7d\x7dHello\x7b\x7bend\x7d\x7d" ∧
    parseTemplatesT "s2" "\x7b\x7bdefine t\x7d\x7dHello\x7b\x7bend\x7d\x7d" none =
      .error (.exc "s2:0: Expected ( at end of input") := by
  refine ⟨rfl, ?_, rfl⟩
  simp only [strEnv, List.map, joinNN, strN]
  rfl

/-- Claim C5: the spec says any single- or double-quoted string literal
parses to a `StrLitNode` with escape decoding, including contents of
length two or more.  The expression tokenizer's quoted alternatives
`\x22(?:[^\\\x22]|\\.)\x22` lack the Kleene star, so only one-unit
contents lex as string literals: `{{"ab"}}` fails to parse (the `ab`
inside is lexed as a bare name and the parser then demands a call's
parenthesis), while `{{"a"}}` parses as the spec describes. -/
theorem c5_two_char_string_literal_rejected :
    parseTemplatesT "src" "\x7b\x7b\x22ab\x22\x7d\x7d" (some "t") =
      .error (.exc "src:0: Expected ( at end of input") ∧
    parseTemplatesT "src" "\x7b\x7b\x22a\x22\x7d\x7d" (some "t") =
      .ok [("t", .interpolation "src" 0 (.strLit "src" 0 "a"))] :=
  ⟨rfl, rfl⟩

/-- Claim C6: executing an `InterpolationNode` evaluates its expression
and appends the value's string form to the output — a string unchanged,
a non-string non-null value via its string representation, and a
null/absent value appends nothing. -/
theorem c6_interpolation_appends_string_form
    (s : String) (l : Nat) (e : Node) (env : Env) (out : String) (v : Value)
    (h : pyExec e env none = .ok (none, v)) :
    pyExec (.interpolation s l e) env (some out) =
      .ok (some (out ++ (match v with
        | .vnone => ""
        | .vstr str2 => str2
        | v2 => pyStr v2)), .vnone) := by
  cases v <;> simp [pyExec, h, pyStr]

/-- Witness for claim C6 at a concrete interpolation of a string
literal. -/
theorem c6_witness :
    pyExec (.interpolation "s" 0 (.strLit "s" 0 "x"))
        ⟨.vnone, [], []⟩ (some "A") =
      .ok (some ("A" ++ "x"), .vnone) :=
  c6_interpolation_appends_string_form "s" 0 (.strLit "s" 0 "x")
    ⟨.vnone, [], []⟩ "A" (.vstr "x") (by simp [pyExec])

/-- Claim C7: `escape(env, name)`, when `name` is a stored template,
registers the HTML-escaping callable under the reserved registry name
`html` and replaces the stored root with the rewrite that wraps every
interpolation's expression in a `CallNode` invoking `html`, leaves
every other expression node untouched, and rebuilds every other
statement node around its individually rewritten children
(`wfTemplate` is the data-model constraint of spec section 3 that a
`TemplateNode`'s name child is an expression node). -/
theorem c7_escape_registers_and_rewrites (env : Env) (name : String)
    (root : Node) (hlk : dictLookup env.templates name = some root)
    (hwf : wfTemplate root = true) :
    escapeTemplate env name =
      .ok { data := env.data,
            fns := dictSet env.fns "html" escapeHtmlFn,
            templates := dictSet env.templates name (escSpec root) } :=
  escapeTemplate_eq env name root hlk hwf

/-- Witness for claim C7 at a concrete one-interpolation template. -/
theorem c7_witness :
    escapeTemplate ⟨.vnone, [], [("t",
        .interpolation "s" 0 (.reference "s" 0 ["x"]))]⟩ "t" =
      .ok ⟨.vnone, [("html", escapeHtmlFn)],
        [("t", .interpolation "s" 0
          (.call "s" 0 "html" [.reference "s" 0 ["x"]]))]⟩ := by
  have h := c7_escape_registers_and_rewrites
    ⟨.vnone, [], [("t", .interpolation "s" 0 (.reference "s" 0 ["x"]))]⟩ "t"
    (.interpolation "s" 0 (.reference "s" 0 ["x"])) rfl rfl
  simpa [dictSet, escSpec] using h

/-- Claim C8: the spec says every node's `with_children` returns a node
of the same variant whose `children()` is exactly the supplied list, in
particular for `TemplateNode`.  `TemplateNode.with_children` reads
`children[0]` into a local it never uses and passes `self.name.clone()`
instead: replacing the name child of `{{template 'a'}}` with a
different literal returns the original node, whose children are not
the supplied list. -/
theorem c8_template_with_children_drops_name :
    withChildren (.templateNode "s" 0 (.strLit "s" 0 "a") none)
        [.strLit "s" 0 "b"] =
      .ok (.templateNode "s" 0 (.strLit "s" 0 "a") none) ∧
    children (.templateNode "s" 0 (.strLit "s" 0 "a") none) ≠
      [Node.strLit "s" 0 "b"] := by
  constructor
  · simp [withChildren, clone, cloneList, children]
  · simp [children]

/-- Claim C9: the spec says a `{{define}}` that would rebind an
already-bound template name fails with a source-and-line diagnostic
(via `fail` and the `Redefinition of %r` message).  The code does fail
on this input and returns no environment, but with the unconditional
`TypeError` from `parse_define`'s one-argument `expr.execute` call,
raised already at the first define, so the redefinition diagnostic is
unreachable. -/
theorem c9_redefinition_diagnostic_unreachable :
    parseTemplatesT "src"
        ("\x7b\x7bdefine \x22t\x22\x7d\x7da\x7b\x7bend\x7d\x7d" ++
          "\x7b\x7bdefine \x22t\x22\x7d\x7db\x7b\x7bend\x7d\x7d") none =
      .error (.typeError "execute() takes exactly 3 arguments (2 given)") := rfl

/-- Claim C10: applying `escape` twice to the same template name wraps
each interpolation a second time — after two applications every
interpolation's original expression `E` is stored as
`CallNode(html, (CallNode(html, (E,)),))`; nothing guards against the
double wrap. -/
theorem c10_escape_twice_double_wraps (env : Env) (name : String)
    (root : Node) (hlk : dictLookup env.templates name = some root)
    (hwf : wfTemplate root = true) :
    ∃ env2,
      (do
        let env1 ← escapeTemplate env name
        escapeTemplate env1 name) = .ok env2 ∧
      dictLookup env2.templates name = some (escSpecTwice root) := by
  have h1 := escapeTemplate_eq env name root hlk hwf
  have hlk1 :
      dictLookup (dictSet env.templates name (escSpec root)) name =
        some (escSpec root) :=
    dictLookup_dictSet_self name (escSpec root) env.templates
  have h2 := escapeTemplate_eq
    { data := env.data, fns := dictSet env.fns "html" escapeHtmlFn,
      templates := dictSet env.templates name (escSpec root) } name
    (escSpec root) hlk1 (wf_escSpec root hwf)
  refine ⟨{ data := env.data,
            fns := dictSet (dictSet env.fns "html" escapeHtmlFn) "html"
              escapeHtmlFn,
            templates := dictSet (dictSet env.templates name (escSpec root))
              name (escSpec (escSpec root)) }, ?_, ?_⟩
  · rw [h1]
    exact h2
  · rw [escSpecTwice_eq root]
    exact dictLookup_dictSet_self name (escSpec (escSpec root)) _

/-- Witness for claim C10 at a concrete one-interpolation template:
after two passes the stored expression is the doubly wrapped call, which
differs from the singly wrapped one (the rewrite is not idempotent). -/
theorem c10_witness :
    (∃ env2,
      (do
        let env1 ← escapeTemplate
          ⟨.vnone, [], [("t", .interpolation "s" 0 (.reference "s" 0 ["y"]))]⟩
          "t"
        escapeTemplate env1 "t") = .ok env2 ∧
      dictLookup env2.templates "t" = some (.interpolation "s" 0
        (.call "s" 0 "html" [Node.call "s" 0 "html" [.reference "s" 0 ["y"]]]))) ∧
    (Node.interpolation "s" 0
        (.call "s" 0 "html" [Node.call "s" 0 "html" [.reference "s" 0 ["y"]]]) ≠
      .interpolation "s" 0 (.call "s" 0 "html" [.reference "s" 0 ["y"]])) := by
  constructor
  · have h := c10_escape_twice_double_wraps
      ⟨.vnone, [], [("t", .interpolation "s" 0 (.reference "s" 0 ["y"]))]⟩ "t"
      (.interpolation "s" 0 (.reference "s" 0 ["y"])) rfl rfl
    simpa [escSpecTwice, escSpecTwiceL] using h
  · simp

end Tmpl
